import Mathlib

/-!
Verification of the compario price-comparison core.

This file shallowly embeds the core logic of the repository:

* `src/lib/actions.ts` — the deterministic mock price generator
  (`generateMockPrices`), the comparison orchestrator (`searchPrices`)
  and the CSV bulk path (`parseCsv`, `processCsv`);
* the search-history hook (`useSearchHistory` / `addHistoryEntry`) —
  a bounded, de-duplicated, most-recent-first list persisted to
  browser-local storage.

Modelling conventions:

* JavaScript numbers are modelled as rationals (`ℚ`); the only
  transcendental operation, `Math.sin`, is passed in as an explicit
  function parameter `jsSin : Int → ℚ` (every call site passes an
  integer seed), so every theorem below holds for every possible
  behaviour of `Math.sin`.
* `encodeURIComponent` is likewise passed in as an explicit parameter
  `enc : String → String`.
* The external AI summarizer `getPriceComparisonSummary` is a parameter
  returning `Except String String`; `Except.error` models a thrown
  promise rejection.
* JavaScript strings are manipulated character-wise (`String.data`),
  matching the character-level semantics of `split`, `trim`,
  `toLowerCase` and `replace` used by the source.
-/

/-- `PriceResult` from `src/lib/types.ts`: one per-store quote.
The objects pushed by `generateMockPrices` carry exactly these four
fields. -/
structure PriceResult where
  store : String
  title : String
  price : ℚ
  url : String
deriving DecidableEq

/-- `ComparisonData` from `src/lib/types.ts`: the value returned by
`searchPrices`. -/
structure ComparisonData where
  productName : String
  results : List PriceResult
  bestPrice : Option PriceResult
  summary : String
deriving DecidableEq

/-- `SearchHistoryEntry` from `src/lib/types.ts`. -/
structure SearchHistoryEntry where
  id : String
  productName : String
  bestPrice : ℚ
  store : String
  timestamp : String
deriving DecidableEq

/-! ### Character-level embeddings of the JavaScript string primitives -/

/-- The UTF-16 code units of one Unicode scalar value, as seen by the
JavaScript split-into-characters and `charCodeAt` operations. -/
def utf16Units (c : Char) : List Nat :=
  if c.toNat < 0x10000 then [c.toNat]
  else
    let v := c.toNat - 0x10000
    [0xD800 + v / 0x400, 0xDC00 + v % 0x400]

/-- All UTF-16 code units of a string, in order. -/
def utf16CodeUnits (s : String) : List Nat :=
  s.data.foldr (fun c r => utf16Units c ++ r) []

/-- JavaScript `ToInt32`: wrap an integer into the signed 32-bit range.
Applied by the `<<` operator inside the name hash. -/
def jsToInt32 (x : Int) : Int :=
  (x + 2 ^ 31) % 2 ^ 32 - 2 ^ 31

/-- JavaScript `acc << 5`: convert to Int32, shift left by 5, keep the
low 32 bits as a signed value. -/
def jsShl5 (acc : Int) : Int :=
  jsToInt32 (jsToInt32 acc * 32)

/-- The string hash from `generateMockPrices`: a reduce over the UTF-16
code units, stepping with `charCode + ((acc << 5) - acc)` from 0. -/
def nameHash (s : String) : Int :=
  (utf16CodeUnits s).foldl (fun acc c => (c : Int) + (jsShl5 acc - acc)) 0

/-- ASCII-faithful model of JavaScript `toLowerCase` on one character. -/
def jsCharToLower (c : Char) : Char :=
  if 'A' ≤ c ∧ c ≤ 'Z' then Char.ofNat (c.toNat + 32) else c

/-- Model of `String.prototype.toLowerCase`. -/
def jsToLowerCase (s : String) : String :=
  String.mk (s.data.map jsCharToLower)

/-- Model of `String.prototype.includes(pat)`: `pat` occurs as a
contiguous substring. -/
def jsIncludes (s pat : String) : Bool :=
  s.data.tails.any (fun t => pat.data.isPrefixOf t)

/-- Model of `Number.prototype.toFixed(2)` followed by `parseFloat`,
for the non-negative prices produced by the generator: round to the
nearest multiple of 1/100, half away from zero. -/
def jsToFixed2 (x : ℚ) : ℚ :=
  ((⌊x * 100 + 1 / 2⌋ : Int) : ℚ) / 100

/-- The decimal string `toFixed(2)` renders for a non-negative price
(integer part, a dot, then exactly two fraction digits). -/
def renderToFixed2 (x : ℚ) : String :=
  let m := (⌊x * 100 + 1 / 2⌋ : Int).toNat
  toString (m / 100) ++ "." ++ (if m % 100 < 10 then "0" else "") ++ toString (m % 100)

/-! ### The price generator (`generateMockPrices` in `src/lib/actions.ts`) -/

/-- The fixed five-store catalog declared at the top of
`generateMockPrices`. -/
def stores : List String :=
  ["Amazon", "eBay", "Walmart", "Best Buy", "Target"]

/-- The inner `pseudoRandom` helper:
`const x = Math.sin(seed) * 10000; return x - Math.floor(x)`. -/
def pseudoRandom (jsSin : Int → ℚ) (seed : Int) : ℚ :=
  let x := jsSin seed * 10000
  x - (⌊x⌋ : Int)

/-- The keyword-tier `basePrice` computation of `generateMockPrices`,
applied to the lowercased product name and its hash. -/
def computeBasePrice (jsSin : Int → ℚ) (lowerCaseProduct : String) (h : Int) : ℚ :=
  if jsIncludes lowerCaseProduct "iphone" || jsIncludes lowerCaseProduct "galaxy" ||
      jsIncludes lowerCaseProduct "pixel" || jsIncludes lowerCaseProduct "smartphone" then
    60000 + pseudoRandom jsSin h * 60000
  else if jsIncludes lowerCaseProduct "macbook" || jsIncludes lowerCaseProduct "laptop" ||
      jsIncludes lowerCaseProduct "notebook" then
    50000 + pseudoRandom jsSin h * 100000
  else if jsIncludes lowerCaseProduct "headphone" || jsIncludes lowerCaseProduct "earbuds" ||
      jsIncludes lowerCaseProduct "airpods" then
    2000 + pseudoRandom jsSin h * 28000
  else if jsIncludes lowerCaseProduct "watch" || jsIncludes lowerCaseProduct "smartwatch" then
    15000 + pseudoRandom jsSin h * 35000
  else if jsIncludes lowerCaseProduct "camera" then
    30000 + pseudoRandom jsSin h * 170000
  else if jsIncludes lowerCaseProduct "gaming console" || jsIncludes lowerCaseProduct "playstation" ||
      jsIncludes lowerCaseProduct "xbox" then
    35000 + pseudoRandom jsSin h * 20000
  else
    ((h.natAbs % 80000 : Nat) : ℚ) + 10000

/-- The per-store multiplier `switch` of `generateMockPrices`. -/
def storeMultiplier (jsSin : Int → ℚ) (store : String) (storeSeed : Int) : ℚ :=
  if store = "Amazon" then 0.95 + pseudoRandom jsSin storeSeed * 0.1
  else if store = "Walmart" then 0.92 + pseudoRandom jsSin storeSeed * 0.1
  else if store = "eBay" then 0.98 + pseudoRandom jsSin storeSeed * 0.15
  else if store = "Best Buy" then 1.0 + pseudoRandom jsSin storeSeed * 0.1
  else if store = "Target" then 0.97 + pseudoRandom jsSin storeSeed * 0.12
  else 1.0

/-- The per-store url `switch` of `generateMockPrices`; `enc` stands for
`encodeURIComponent`. -/
def storeUrl (enc : String → String) (store productName : String) : String :=
  if store = "Amazon" then "https://www.amazon.in/s?k=" ++ enc productName
  else if store = "eBay" then "https://www.ebay.in/sch/i.html?_nkw=" ++ enc productName
  else if store = "Walmart" then "https://www.walmart.com/search?q=" ++ enc productName
  else if store = "Best Buy" then "https://www.bestbuy.com/site/searchpage.jsp?st=" ++ enc productName
  else if store = "Target" then "https://www.target.com/s?searchTerm=" ++ enc productName
  else "https://www.google.com/search?q=" ++ enc productName ++ "+" ++ enc store

/-- The quote list accumulated by the `stores.forEach((store, index) => ...)`
loop of `generateMockPrices`, before the final sort. -/
def baseQuotes (enc : String → String) (jsSin : Int → ℚ) (productName : String) :
    List PriceResult :=
  let lowerCaseProduct := jsToLowerCase productName
  let h := nameHash lowerCaseProduct
  let basePrice := computeBasePrice jsSin lowerCaseProduct h
  stores.enum.map (fun p =>
    { store := p.2
      title := productName
      price := jsToFixed2 (basePrice * storeMultiplier jsSin p.2 (h + (p.1 : Int) * 100))
      url := storeUrl enc p.2 productName })

/-- Comparison relation of the final `results.sort((a, b) => a.price - b.price)`:
ascending order of `price`. -/
def priceOrder (a b : PriceResult) : Prop :=
  a.price ≤ b.price

instance : DecidableRel priceOrder :=
  fun a b => inferInstanceAs (Decidable (a.price ≤ b.price))

instance : IsTotal PriceResult priceOrder :=
  ⟨fun a b => le_total a.price b.price⟩

instance : IsTrans PriceResult priceOrder :=
  ⟨fun _ _ _ hab hbc => le_trans hab hbc⟩

/-- `generateMockPrices` from `src/lib/actions.ts`: build one quote per
catalog store, then sort ascending by price.  JavaScript `Array.sort` with
the comparator `a.price - b.price` is a stable sort by `price`; insertion
sort by `priceOrder` is its standard stable model. -/
def generateMockPrices (enc : String → String) (jsSin : Int → ℚ) (productName : String) :
    List PriceResult :=
  List.insertionSort priceOrder (baseQuotes enc jsSin productName)

/-! ### The comparison orchestrator (`searchPrices`) -/

/-- The JavaScript idiom `results.reduce((best, current) =>
current.price < best.price ? current : best, results[0])`, guarded by the
`results.length > 0` check: first minimum-price element, `none` on the
empty list. -/
def jsReduceMin (l : List PriceResult) : Option PriceResult :=
  match l with
  | [] => none
  | x :: xs => some (xs.foldl (fun best current =>
      if current.price < best.price then current else best) x)

/-- `searchPrices`, parameterised over the price generator so that
claims about the generator never being invoked are expressible.
`summarize` models the external `getPriceComparisonSummary` collaborator;
`Except.error` models a thrown rejection, which the source catches and
replaces with the templated fallback summary. -/
def searchPricesWithGen (gen : String → List PriceResult)
    (summarize : String → List PriceResult → Except String String)
    (productName : String) : Except String ComparisonData :=
  if productName = "" then Except.error "Product name is required."
  else
    let results := gen productName
    if results.isEmpty then
      Except.ok
        { productName := productName
          results := []
          bestPrice := none
          summary := "We couldn't find any reliable prices for \"" ++ productName ++
            "\" at the moment. Please try a different search term or check back later." }
    else
      let summary :=
        match summarize productName results with
        | Except.ok s => s
        | Except.error _ =>
          match jsReduceMin results with
          | some bestPrice =>
            "The best price found for \"" ++ productName ++ "\" is ₹" ++
              renderToFixed2 bestPrice.price ++ " at " ++ bestPrice.store ++
              ". See all options below. (AI summary is temporarily unavailable)."
          | none =>
            "Here's a summary of prices for \"" ++ productName ++
              "\". The best price we found is listed below."
      Except.ok
        { productName := productName
          results := results
          bestPrice := jsReduceMin results
          summary := summary }

/-- `searchPrices` from `src/lib/actions.ts`, with the actual generator
plugged in. -/
def searchPrices (enc : String → String) (jsSin : Int → ℚ)
    (summarize : String → List PriceResult → Except String String)
    (productName : String) : Except String ComparisonData :=
  searchPricesWithGen (generateMockPrices enc jsSin) summarize productName

/-! ### The CSV bulk path (`parseCsv`, `processCsv`) -/

/-- Character-level splitter behind JavaScript `String.prototype.split`
with a one-character separator. -/
def splitCharAux (sep : Char) : List Char → List Char → List (List Char)
  | [], acc => [acc.reverse]
  | c :: rest, acc =>
    if c = sep then acc.reverse :: splitCharAux sep rest []
    else splitCharAux sep rest (c :: acc)

/-- JavaScript split for a one-character separator (the source only
splits on the newline and the comma characters). -/
def jsSplit (sep : Char) (s : String) : List String :=
  (splitCharAux sep s.data []).map String.mk

/-- JavaScript `String.prototype.trim`: strip whitespace from both ends. -/
def jsTrim (s : String) : String :=
  String.mk ((((s.data.dropWhile Char.isWhitespace)).reverse.dropWhile Char.isWhitespace).reverse)

/-- JavaScript `replace(/"/g, '')`: drop every double-quote character. -/
def jsRemoveQuotes (s : String) : String :=
  String.mk (s.data.filter (fun c => c ≠ '"'))

/-- The trimmed, non-empty lines of the CSV text: split on newlines,
trim every line, drop the empty ones. -/
def csvLines (text : String) : List String :=
  ((jsSplit '\n' text).map jsTrim).filter (fun l => l ≠ "")

/-- The parsed header cells of the first CSV line: lowercase it, split
on commas, strip double quotes from each cell and trim it. -/
def csvHeaders (headerLine : String) : List String :=
  (jsSplit ',' (jsToLowerCase headerLine)).map (fun h => jsTrim (jsRemoveQuotes h))

/-- The header cells `parseCsv` inspects for the given CSV text (empty
when there is no line at all). -/
def headersOfCsv (text : String) : List String :=
  match csvLines text with
  | [] => []
  | headerLine :: _ => csvHeaders headerLine

/-- JavaScript `Array.prototype.indexOf`: first index of `x`, `-1` when
absent. -/
def jsIndexOf (l : List String) (x : String) : Int :=
  match l with
  | [] => -1
  | h :: t =>
    if h = x then 0
    else
      let r := jsIndexOf t x
      if r = -1 then -1 else r + 1

/-- `parseCsv` from `src/lib/actions.ts`.  `Except.error` models the
thrown schema error for a missing ProductName column. -/
def parseCsv (text : String) : Except String (List String) :=
  let lines := csvLines text
  if lines.length < 2 then Except.ok []
  else
    let headers := headersOfCsv text
    let productIndex := jsIndexOf headers "productname"
    if productIndex = -1 then Except.error "CSV must have a 'ProductName' column."
    else
      Except.ok ((lines.drop 1).filterMap (fun line =>
        match (jsSplit ',' line).get? productIndex.toNat with
        | none => none
        | some col =>
          let v := jsTrim (jsRemoveQuotes col)
          if v = "" then none else some v))

/-- The record returned by `processCsv` to the form. -/
structure CsvBatchResult where
  status : String
  message : String
  results : List ComparisonData
deriving DecidableEq

/-- `processCsv` from `src/lib/actions.ts`, parameterised over the
`searchPrices` collaborator (so that non-invocation is expressible).
The `csvFile` argument is `none` for a missing file and `some text` for
a file with the given contents; a present file with empty contents has
`size === 0`. -/
def processCsv (search : String → Except String ComparisonData)
    (csvFile : Option String) : CsvBatchResult :=
  match csvFile with
  | none => { status := "error", message := "Please select a CSV file.", results := [] }
  | some text =>
    if text = "" then
      { status := "error", message := "Please select a CSV file.", results := [] }
    else
      match parseCsv text with
      | Except.error e => { status := "error", message := e, results := [] }
      | Except.ok productNames =>
        if productNames = [] then
          { status := "error", message := "No products found in the CSV file.", results := [] }
        else
          match productNames.mapM search with
          | Except.error e => { status := "error", message := e, results := [] }
          | Except.ok comparisonResults =>
            { status := "success", message := "", results := comparisonResults }

/-! ### The search-history cache (`useSearchHistory`) -/

/-- `MAX_HISTORY_ITEMS = 10`. -/
def MAX_HISTORY_ITEMS : Nat := 10

/-- The de-duplication step of `addHistoryEntry`:
`filter((item, index, self) => index === self.findIndex(t => t.productName === item.productName))`,
keeping only the first occurrence of each `productName`. -/
def keepFirstByProduct (l : List SearchHistoryEntry) : List SearchHistoryEntry :=
  (l.enum.filter (fun p =>
    l.findIdx (fun t => t.productName == p.2.productName) = p.1)).map Prod.snd

/-- `addHistoryEntry` from the `useSearchHistory` hook: prepend the new
entry, keep the first occurrence of each product name, truncate to
`MAX_HISTORY_ITEMS`.  The impure construction of `id` and `timestamp`
(`new Date()`, `Math.random()`) is modelled by taking the fully built
`entryWithMeta` as input. -/
def addHistoryEntry (entryWithMeta : SearchHistoryEntry)
    (prevHistory : List SearchHistoryEntry) : List SearchHistoryEntry :=
  (keepFirstByProduct (entryWithMeta :: prevHistory)).take MAX_HISTORY_ITEMS

/-- The observable operations of the history cache. -/
inductive HistOp where
  | add : SearchHistoryEntry → HistOp
  | load : HistOp
deriving DecidableEq

/-- The cache state: the in-memory list plus the local-storage slot.
`storage = none` models an absent key (nothing saved yet); `some l`
models the JSON serialisation of `l` (the JSON round trip of the lists
the cache itself writes is the identity). -/
structure CacheState where
  history : List SearchHistoryEntry
  storage : Option (List SearchHistoryEntry)
deriving DecidableEq

/-- One cache operation: `add` runs `addHistoryEntry` and persists the
updated list (`localStorage.setItem`); `load` runs the mount effect,
which reads the stored list if present and otherwise leaves the state
untouched. -/
def histStep (s : CacheState) : HistOp → CacheState
  | HistOp.add e =>
    let updatedHistory := addHistoryEntry e s.history
    { history := updatedHistory, storage := some updatedHistory }
  | HistOp.load =>
    match s.storage with
    | none => s
    | some storedHistory => { history := storedHistory, storage := s.storage }

/-- Run a sequence of cache operations from the fresh state (empty list,
nothing stored). -/
def runHist (ops : List HistOp) : CacheState :=
  ops.foldl histStep { history := [], storage := none }

/-- The mount effect of `useSearchHistory` at the raw storage level:
`parse` models `JSON.parse` (with `Except.error` a thrown
`SyntaxError`), `stored` the result of `localStorage.getItem`.  The
initial history is `[]`; a falsy stored value (absent key or empty
string) skips parsing, and a parse failure is caught and logged, leaving
the history empty. -/
def loadHistory (parse : String → Except String (List SearchHistoryEntry))
    (stored : Option String) : List SearchHistoryEntry :=
  match stored with
  | none => []
  | some storedHistory =>
    if storedHistory = "" then []
    else
      match parse storedHistory with
      | Except.ok l => l
      | Except.error _ => []

/-- Recursive characterisation of the keep-first-occurrence
de-duplication (proved equal to `keepFirstByProduct` below): keep the
head, drop every later entry with the same product name, recurse. -/
def dedupFirst (l : List SearchHistoryEntry) : List SearchHistoryEntry :=
  match l with
  | [] => []
  | x :: xs => x :: dedupFirst (xs.filter (fun t => !(t.productName == x.productName)))
termination_by l.length
decreasing_by
  simp only [List.length_cons]
  exact Nat.lt_succ_of_le (List.length_filter_le _ _)

/-- Comparison of `(price, store)` projections by price, used to state
that the sorted order of prices and stores is a function of the price
values alone. -/
def pairPriceOrder (x y : ℚ × String) : Prop :=
  x.1 ≤ y.1

instance : DecidableRel pairPriceOrder :=
  fun x y => inferInstanceAs (Decidable (x.1 ≤ y.1))

/-- `sub` occurs contiguously inside `s`. -/
def strContains (s sub : String) : Prop :=
  ∃ pre post, s = pre ++ sub ++ post

/-! ### Basic facts about the price generator -/

theorem pseudoRandom_nonneg (jsSin : Int → ℚ) (seed : Int) :
    0 ≤ pseudoRandom jsSin seed := by
  simp only [pseudoRandom]
  have := Int.floor_le (jsSin seed * 10000)
  linarith

theorem pseudoRandom_lt_one (jsSin : Int → ℚ) (seed : Int) :
    pseudoRandom jsSin seed < 1 := by
  simp only [pseudoRandom]
  have := Int.lt_floor_add_one (jsSin seed * 10000)
  linarith

theorem computeBasePrice_ge (jsSin : Int → ℚ) (lower : String) (hsh : Int) :
    2000 ≤ computeBasePrice jsSin lower hsh := by
  unfold computeBasePrice
  have hpr := pseudoRandom_nonneg jsSin hsh
  split_ifs
  · linarith
  · linarith
  · linarith
  · linarith
  · linarith
  · linarith
  · have hcast : (0 : ℚ) ≤ ((hsh.natAbs % 80000 : Nat) : ℚ) := by positivity
    linarith

theorem storeMultiplier_ge (jsSin : Int → ℚ) (store : String) (seed : Int) :
    (92 / 100 : ℚ) ≤ storeMultiplier jsSin store seed := by
  unfold storeMultiplier
  have hpr := pseudoRandom_nonneg jsSin seed
  split_ifs
  · norm_num; linarith
  · norm_num; linarith
  · norm_num; linarith
  · norm_num; linarith
  · norm_num; linarith
  · norm_num

theorem jsToFixed2_pos (x : ℚ) (hx : 1 ≤ x) : 0 < jsToFixed2 x := by
  unfold jsToFixed2
  have h1 : (100 : ℤ) ≤ ⌊x * 100 + 1 / 2⌋ := by
    rw [Int.le_floor]
    push_cast
    linarith
  have h2 : (100 : ℚ) ≤ ((⌊x * 100 + 1 / 2⌋ : ℤ) : ℚ) := by exact_mod_cast h1
  linarith

theorem baseQuotes_length (enc : String → String) (jsSin : Int → ℚ) (n : String) :
    (baseQuotes enc jsSin n).length = 5 := by
  simp [baseQuotes, stores]

theorem generateMockPrices_perm (enc : String → String) (jsSin : Int → ℚ) (n : String) :
    List.Perm (generateMockPrices enc jsSin n) (baseQuotes enc jsSin n) :=
  List.perm_insertionSort priceOrder (baseQuotes enc jsSin n)

theorem generateMockPrices_length (enc : String → String) (jsSin : Int → ℚ) (n : String) :
    (generateMockPrices enc jsSin n).length = 5 :=
  ((generateMockPrices_perm enc jsSin n).length_eq).trans (baseQuotes_length enc jsSin n)

theorem generateMockPrices_sorted (enc : String → String) (jsSin : Int → ℚ) (n : String) :
    List.Sorted priceOrder (generateMockPrices enc jsSin n) :=
  List.sorted_insertionSort priceOrder (baseQuotes enc jsSin n)

theorem generateMockPrices_ne_nil (enc : String → String) (jsSin : Int → ℚ) (n : String) :
    generateMockPrices enc jsSin n ≠ [] := by
  intro hnil
  have := generateMockPrices_length enc jsSin n
  rw [hnil] at this
  simp at this

theorem baseQuotes_facts (enc : String → String) (jsSin : Int → ℚ) (n : String)
    (q : PriceResult) (hq : q ∈ baseQuotes enc jsSin n) :
    0 < q.price ∧ q.title = n ∧ ∃ pre, q.url = pre ++ enc n := by
  simp only [baseQuotes, List.mem_map] at hq
  obtain ⟨p, hp, rfl⟩ := hq
  refine ⟨?_, rfl, ?_⟩
  · apply jsToFixed2_pos
    have hb := computeBasePrice_ge jsSin (jsToLowerCase n) (nameHash (jsToLowerCase n))
    have hm := storeMultiplier_ge jsSin p.2
      (nameHash (jsToLowerCase n) + (p.1 : Int) * 100)
    have := mul_le_mul hb hm (by norm_num) (by linarith)
    linarith
  · have henum : stores.enum =
        [(0, "Amazon"), (1, "eBay"), (2, "Walmart"), (3, "Best Buy"), (4, "Target")] := rfl
    rw [henum] at hp
    simp only [List.mem_cons, List.not_mem_nil, or_false] at hp
    rcases hp with rfl | rfl | rfl | rfl | rfl
    · exact ⟨"https://www.amazon.in/s?k=", rfl⟩
    · exact ⟨"https://www.ebay.in/sch/i.html?_nkw=", rfl⟩
    · exact ⟨"https://www.walmart.com/search?q=", rfl⟩
    · exact ⟨"https://www.bestbuy.com/site/searchpage.jsp?st=", rfl⟩
    · exact ⟨"https://www.target.com/s?searchTerm=", rfl⟩

theorem mem_generateMockPrices_facts (enc : String → String) (jsSin : Int → ℚ) (n : String)
    (q : PriceResult) (hq : q ∈ generateMockPrices enc jsSin n) :
    0 < q.price ∧ q.title = n ∧ ∃ pre, q.url = pre ++ enc n :=
  baseQuotes_facts enc jsSin n q ((generateMockPrices_perm enc jsSin n).mem_iff.mp hq)

/-! ### The reduce-minimum idiom on a sorted list -/

theorem foldl_min_of_le (x : PriceResult) (xs : List PriceResult)
    (h : ∀ y ∈ xs, x.price ≤ y.price) :
    xs.foldl (fun best current => if current.price < best.price then current else best) x = x := by
  induction xs with
  | nil => rfl
  | cons y ys ih =>
    have hxy : ¬ y.price < x.price := not_lt.mpr (h y (by simp))
    simp only [List.foldl_cons, if_neg hxy]
    exact ih (fun z hz => h z (by simp [hz]))

theorem jsReduceMin_sorted (l : List PriceResult) (h : List.Sorted priceOrder l) :
    jsReduceMin l = l.head? := by
  cases l with
  | nil => rfl
  | cons x xs =>
    have hx : ∀ y ∈ xs, x.price ≤ y.price := (List.sorted_cons.mp h).1
    simp only [jsReduceMin, List.head?_cons]
    rw [foldl_min_of_le x xs hx]

/-! ### Unfolding `searchPrices` on a non-empty product name -/

theorem searchPrices_eq (enc : String → String) (jsSin : Int → ℚ)
    (summarize : String → List PriceResult → Except String String)
    (name : String) (h : name ≠ "") :
    searchPrices enc jsSin summarize name =
      Except.ok
        { productName := name
          results := generateMockPrices enc jsSin name
          bestPrice := jsReduceMin (generateMockPrices enc jsSin name)
          summary :=
            match summarize name (generateMockPrices enc jsSin name) with
            | Except.ok s => s
            | Except.error _ =>
              match jsReduceMin (generateMockPrices enc jsSin name) with
              | some bestPrice =>
                "The best price found for \"" ++ name ++ "\" is ₹" ++
                  renderToFixed2 bestPrice.price ++ " at " ++ bestPrice.store ++
                  ". See all options below. (AI summary is temporarily unavailable)."
              | none =>
                "Here's a summary of prices for \"" ++ name ++
                  "\". The best price we found is listed below." } := by
  have hne : (generateMockPrices enc jsSin name).isEmpty = false :=
    List.isEmpty_eq_false.mpr (generateMockPrices_ne_nil enc jsSin name)
  unfold searchPrices searchPricesWithGen
  rw [if_neg h]
  simp only [hne, Bool.false_eq_true, if_false]

/-! ### Sorting commutes with projections that determine the order -/

theorem map_orderedInsert_rel {α β : Type} (f : α → β) (r : α → α → Prop)
    (s : β → β → Prop) [DecidableRel r] [DecidableRel s]
    (hrs : ∀ a b, r a b ↔ s (f a) (f b)) (a : α) (l : List α) :
    (List.orderedInsert r a l).map f = List.orderedInsert s (f a) (l.map f) := by
  induction l with
  | nil => rfl
  | cons b t ih =>
    simp only [List.orderedInsert, List.map_cons]
    by_cases h : r a b
    · rw [if_pos h, if_pos ((hrs a b).mp h)]
      simp
    · rw [if_neg h, if_neg (fun hs => h ((hrs a b).mpr hs)), List.map_cons, ih]

theorem map_insertionSort_rel {α β : Type} (f : α → β) (r : α → α → Prop)
    (s : β → β → Prop) [DecidableRel r] [DecidableRel s]
    (hrs : ∀ a b, r a b ↔ s (f a) (f b)) (l : List α) :
    (List.insertionSort r l).map f = List.insertionSort s (l.map f) := by
  induction l with
  | nil => rfl
  | cons a t ih =>
    simp only [List.insertionSort, List.map_cons]
    rw [map_orderedInsert_rel f r s hrs a, ih]

theorem baseQuotes_pair_map (enc : String → String) (jsSin : Int → ℚ) (n1 n2 : String)
    (hl : jsToLowerCase n1 = jsToLowerCase n2) :
    (baseQuotes enc jsSin n1).map (fun q => (q.price, q.store)) =
      (baseQuotes enc jsSin n2).map (fun q => (q.price, q.store)) := by
  simp only [baseQuotes, List.map_map]
  congr 1
  funext p
  simp only [Function.comp_apply]
  rw [hl]

/-! ### String building blocks for the summary claims -/

theorem str_append_ne_empty_left (a b : String) (h : a ≠ "") : a ++ b ≠ "" := by
  intro hc
  apply h
  have hdata : a.data ++ b.data = ([] : List Char) := by
    have := congrArg String.data hc
    simpa using this
  have ha : a.data = [] := (List.append_eq_nil.mp hdata).1
  cases a
  simp_all

/-! ### Claim theorems -/

/-- C1: for every non-empty product name, `searchPrices` returns its
`results` sorted ascending by price; `bestPrice` is absent exactly when
`results` is empty, and when present it is the first element of
`results`, hence a minimum-price element with ties broken by the first
occurrence in `results`. -/
theorem claim1_searchPrices_sorted_bestPrice (enc : String → String) (jsSin : Int → ℚ)
    (summarize : String → List PriceResult → Except String String)
    (name : String) (h : name ≠ "") :
    ∃ r, searchPrices enc jsSin summarize name = Except.ok r ∧
      List.Sorted priceOrder r.results ∧
      (r.bestPrice = none ↔ r.results = []) ∧
      ∀ bp, r.bestPrice = some bp →
        r.results.head? = some bp ∧ bp ∈ r.results ∧ ∀ q ∈ r.results, bp.price ≤ q.price := by
  have hsorted := generateMockPrices_sorted enc jsSin name
  have hred := jsReduceMin_sorted (generateMockPrices enc jsSin name) hsorted
  refine ⟨_, searchPrices_eq enc jsSin summarize name h, hsorted, ?_, ?_⟩
  · show jsReduceMin (generateMockPrices enc jsSin name) = none ↔ _
    rw [hred]
    exact List.head?_eq_none_iff
  · intro bp hbp
    have hbp' : (generateMockPrices enc jsSin name).head? = some bp := by
      rw [← hred]; exact hbp
    refine ⟨hbp', ?_, ?_⟩
    · cases hgen : generateMockPrices enc jsSin name with
      | nil => rw [hgen] at hbp'; simp at hbp'
      | cons x xs =>
        rw [hgen] at hbp'
        simp only [List.head?_cons, Option.some.injEq] at hbp'
        subst hbp'
        exact List.mem_cons_self _ _
    · intro q hq
      cases hgen : generateMockPrices enc jsSin name with
      | nil => rw [hgen] at hbp'; simp at hbp'
      | cons x xs =>
        rw [hgen] at hbp'
        simp only [List.head?_cons, Option.some.injEq] at hbp'
        subst hbp'
        rw [hgen] at hsorted hq
        have hall := (List.sorted_cons.mp hsorted).1
        rcases List.mem_cons.mp hq with rfl | hq'
        · exact le_refl _
        · exact hall q hq'

/-- C1 witness: the theorem instantiated at a concrete non-empty name. -/
theorem claim1_witness :
    ∃ r, searchPrices id (fun _ => 0) (fun _ _ => Except.ok "s") "a" = Except.ok r ∧
      List.Sorted priceOrder r.results ∧
      (r.bestPrice = none ↔ r.results = []) ∧
      ∀ bp, r.bestPrice = some bp →
        r.results.head? = some bp ∧ bp ∈ r.results ∧ ∀ q ∈ r.results, bp.price ≤ q.price :=
  claim1_searchPrices_sorted_bestPrice id (fun _ => 0) (fun _ _ => Except.ok "s") "a"
    (by decide)

/-- C2: when the summarization collaborator throws, `searchPrices` on a
non-empty product name still succeeds, and its summary is the
deterministic fallback string, which is non-empty and contains the best
store name and the rendered best price. -/
theorem claim2_fallback_summary (enc : String → String) (jsSin : Int → ℚ)
    (summarize : String → List PriceResult → Except String String)
    (name e : String) (hn : name ≠ "")
    (hf : summarize name (generateMockPrices enc jsSin name) = Except.error e) :
    ∃ r bp, searchPrices enc jsSin summarize name = Except.ok r ∧
      r.bestPrice = some bp ∧
      r.summary = "The best price found for \"" ++ name ++ "\" is ₹" ++
        renderToFixed2 bp.price ++ " at " ++ bp.store ++
        ". See all options below. (AI summary is temporarily unavailable)." ∧
      r.summary ≠ "" ∧
      strContains r.summary bp.store ∧
      strContains r.summary (renderToFixed2 bp.price) := by
  have hsorted := generateMockPrices_sorted enc jsSin name
  have hred := jsReduceMin_sorted (generateMockPrices enc jsSin name) hsorted
  obtain ⟨q0, xs, hgen⟩ : ∃ q0 xs, generateMockPrices enc jsSin name = q0 :: xs := by
    cases hg : generateMockPrices enc jsSin name with
    | nil => exact absurd hg (generateMockPrices_ne_nil enc jsSin name)
    | cons a l => exact ⟨a, l, rfl⟩
  have hmin : jsReduceMin (generateMockPrices enc jsSin name) = some q0 := by
    rw [hred, hgen]
    rfl
  refine ⟨_, q0, searchPrices_eq enc jsSin summarize name hn, hmin, ?_⟩
  have hsum :
      (match summarize name (generateMockPrices enc jsSin name) with
        | Except.ok s => s
        | Except.error _ =>
          match jsReduceMin (generateMockPrices enc jsSin name) with
          | some bestPrice =>
            "The best price found for \"" ++ name ++ "\" is ₹" ++
              renderToFixed2 bestPrice.price ++ " at " ++ bestPrice.store ++
              ". See all options below. (AI summary is temporarily unavailable)."
          | none =>
            "Here's a summary of prices for \"" ++ name ++
              "\". The best price we found is listed below.") =
      "The best price found for \"" ++ name ++ "\" is ₹" ++
        renderToFixed2 q0.price ++ " at " ++ q0.store ++
        ". See all options below. (AI summary is temporarily unavailable)." := by
    rw [hf, hmin]
  refine ⟨hsum, ?_, ?_, ?_⟩
  · rw [hsum]
    apply str_append_ne_empty_left
    apply str_append_ne_empty_left
    apply str_append_ne_empty_left
    apply str_append_ne_empty_left
    apply str_append_ne_empty_left
    apply str_append_ne_empty_left
    decide
  · rw [hsum]
    exact ⟨"The best price found for \"" ++ name ++ "\" is ₹" ++
      renderToFixed2 q0.price ++ " at ",
      ". See all options below. (AI summary is temporarily unavailable).", rfl⟩
  · rw [hsum]
    refine ⟨"The best price found for \"" ++ name ++ "\" is ₹",
      " at " ++ q0.store ++
        ". See all options below. (AI summary is temporarily unavailable).", ?_⟩
    simp [String.append_assoc]

/-- C2 witness: a summarizer that always throws, at a concrete name. -/
theorem claim2_witness :
    ∃ r bp, searchPrices id (fun _ => 0) (fun _ _ => Except.error "boom") "a" = Except.ok r ∧
      r.bestPrice = some bp ∧
      r.summary = "The best price found for \"" ++ "a" ++ "\" is ₹" ++
        renderToFixed2 bp.price ++ " at " ++ bp.store ++
        ". See all options below. (AI summary is temporarily unavailable)." ∧
      r.summary ≠ "" ∧
      strContains r.summary bp.store ∧
      strContains r.summary (renderToFixed2 bp.price) :=
  claim2_fallback_summary id (fun _ => 0) (fun _ _ => Except.error "boom") "a" "boom"
    (by decide) rfl

/-- C5: within one process (a fixed `Math.sin` and `encodeURIComponent`),
the `results` field of `searchPrices` is fully determined by the product
name — it equals `generateMockPrices` on that name regardless of how the
external summarizer behaves, so two invocations on the same name yield
identical per-store prices. -/
theorem claim5_deterministic_results (enc : String → String) (jsSin : Int → ℚ)
    (sum1 sum2 : String → List PriceResult → Except String String)
    (name : String) (h : name ≠ "") :
    ∃ r1 r2, searchPrices enc jsSin sum1 name = Except.ok r1 ∧
      searchPrices enc jsSin sum2 name = Except.ok r2 ∧
      r1.results = generateMockPrices enc jsSin name ∧
      r2.results = generateMockPrices enc jsSin name ∧
      r1.results = r2.results ∧
      r1.results.map (fun q => (q.store, q.price)) =
        r2.results.map (fun q => (q.store, q.price)) :=
  ⟨_, _, searchPrices_eq enc jsSin sum1 name h, searchPrices_eq enc jsSin sum2 name h,
    rfl, rfl, rfl, rfl⟩

/-- C5 witness: two invocations with different summarizer behaviours. -/
theorem claim5_witness :
    ∃ r1 r2, searchPrices id (fun _ => 0) (fun _ _ => Except.ok "s") "a" = Except.ok r1 ∧
      searchPrices id (fun _ => 0) (fun _ _ => Except.error "boom") "a" = Except.ok r2 ∧
      r1.results = generateMockPrices id (fun _ => 0) "a" ∧
      r2.results = generateMockPrices id (fun _ => 0) "a" ∧
      r1.results = r2.results ∧
      r1.results.map (fun q => (q.store, q.price)) =
        r2.results.map (fun q => (q.store, q.price)) :=
  claim5_deterministic_results id (fun _ => 0) (fun _ _ => Except.ok "s")
    (fun _ _ => Except.error "boom") "a" (by decide)

/-- C6: for every non-empty product name, `searchPrices` returns exactly
one quote per catalog store (five for the fixed catalog, with the store
names a permutation of the catalog), every price is strictly positive,
and the store of the best quote equals the store of the head of the results. -/
theorem claim6_one_quote_per_store (enc : String → String) (jsSin : Int → ℚ)
    (summarize : String → List PriceResult → Except String String)
    (name : String) (h : name ≠ "") :
    ∃ r, searchPrices enc jsSin summarize name = Except.ok r ∧
      r.results.length = stores.length ∧
      stores.length = 5 ∧
      List.Perm (r.results.map (fun q => q.store)) stores ∧
      (∀ q ∈ r.results, 0 < q.price) ∧
      ∃ bp q0, r.bestPrice = some bp ∧ r.results.head? = some q0 ∧ bp.store = q0.store := by
  have hsorted := generateMockPrices_sorted enc jsSin name
  have hred := jsReduceMin_sorted (generateMockPrices enc jsSin name) hsorted
  obtain ⟨q0, xs, hgen⟩ : ∃ q0 xs, generateMockPrices enc jsSin name = q0 :: xs := by
    cases hg : generateMockPrices enc jsSin name with
    | nil => exact absurd hg (generateMockPrices_ne_nil enc jsSin name)
    | cons a l => exact ⟨a, l, rfl⟩
  refine ⟨_, searchPrices_eq enc jsSin summarize name h, ?_, rfl, ?_, ?_, ?_⟩
  · exact (generateMockPrices_length enc jsSin name).trans rfl
  · have hperm := (generateMockPrices_perm enc jsSin name).map (fun q => q.store)
    have hbase : (baseQuotes enc jsSin name).map (fun q => q.store) = stores := by
      simp only [baseQuotes, List.map_map]
      have : ((fun q : PriceResult => q.store) ∘ fun p : Nat × String =>
          ({ store := p.2, title := name,
             price := jsToFixed2
               (computeBasePrice jsSin (jsToLowerCase name) (nameHash (jsToLowerCase name)) *
                 storeMultiplier jsSin p.2 (nameHash (jsToLowerCase name) + (p.1 : Int) * 100)),
             url := storeUrl enc p.2 name } : PriceResult)) = Prod.snd := by
        funext p
        rfl
      rw [this, List.enum, List.enumFrom_map_snd]
    rw [hbase] at hperm
    exact hperm
  · intro q hq
    exact (mem_generateMockPrices_facts enc jsSin name q hq).1
  · refine ⟨q0, q0, ?_, ?_, rfl⟩
    · show jsReduceMin (generateMockPrices enc jsSin name) = some q0
      rw [hred, hgen]
      rfl
    · show (generateMockPrices enc jsSin name).head? = some q0
      rw [hgen]
      rfl

/-- C6 witness: the scenario of the spec at the name "iPhone 15". -/
theorem claim6_witness :
    ∃ r, searchPrices id (fun _ => 0) (fun _ _ => Except.ok "s") "iPhone 15" = Except.ok r ∧
      r.results.length = stores.length ∧
      stores.length = 5 ∧
      List.Perm (r.results.map (fun q => q.store)) stores ∧
      (∀ q ∈ r.results, 0 < q.price) ∧
      ∃ bp q0, r.bestPrice = some bp ∧ r.results.head? = some q0 ∧ bp.store = q0.store :=
  claim6_one_quote_per_store id (fun _ => 0) (fun _ _ => Except.ok "s") "iPhone 15"
    (by decide)

/-- C8: the empty product name is rejected with the required error before
the price generator runs: the outcome of `searchPrices` on `""` is the
same whatever generator is plugged in (so `generateMockPrices` is never
invoked), and it is the `Error("Product name is required.")` rejection. -/
theorem claim8_empty_name_rejected (g1 g2 : String → List PriceResult)
    (sum1 sum2 : String → List PriceResult → Except String String) :
    searchPricesWithGen g1 sum1 "" = Except.error "Product name is required." ∧
    searchPricesWithGen g1 sum1 "" = searchPricesWithGen g2 sum2 "" :=
  ⟨rfl, rfl⟩

/-- C10: pricing is case-insensitive — two names with the same lowercase
form yield identical (price, store) sequences — while every quote still
carries the original name as its title and its URL-encoded form in the
url. -/
theorem claim10_case_insensitive_prices (enc : String → String) (jsSin : Int → ℚ)
    (n1 n2 : String) (h1 : n1 ≠ "") (h2 : n2 ≠ "")
    (hl : jsToLowerCase n1 = jsToLowerCase n2) :
    ((generateMockPrices enc jsSin n1).map (fun q => (q.price, q.store)) =
      (generateMockPrices enc jsSin n2).map (fun q => (q.price, q.store))) ∧
    (∀ q ∈ generateMockPrices enc jsSin n1, q.title = n1 ∧ ∃ pre, q.url = pre ++ enc n1) ∧
    (∀ q ∈ generateMockPrices enc jsSin n2, q.title = n2 ∧ ∃ pre, q.url = pre ++ enc n2) := by
  refine ⟨?_, ?_, ?_⟩
  · have hrs : ∀ a b : PriceResult,
        priceOrder a b ↔ pairPriceOrder (a.price, a.store) (b.price, b.store) :=
      fun _ _ => Iff.rfl
    unfold generateMockPrices
    rw [map_insertionSort_rel (fun q => (q.price, q.store)) priceOrder pairPriceOrder
        hrs (baseQuotes enc jsSin n1),
      map_insertionSort_rel (fun q => (q.price, q.store)) priceOrder pairPriceOrder
        hrs (baseQuotes enc jsSin n2),
      baseQuotes_pair_map enc jsSin n1 n2 hl]
  · intro q hq
    exact (mem_generateMockPrices_facts enc jsSin n1 q hq).2
  · intro q hq
    exact (mem_generateMockPrices_facts enc jsSin n2 q hq).2

/-- C10 witness: two spellings of the same name. -/
theorem claim10_witness :
    ((generateMockPrices id (fun _ => 0) "IPhone 15").map (fun q => (q.price, q.store)) =
      (generateMockPrices id (fun _ => 0) "iphone 15").map (fun q => (q.price, q.store))) ∧
    (∀ q ∈ generateMockPrices id (fun _ => 0) "IPhone 15",
      q.title = "IPhone 15" ∧ ∃ pre, q.url = pre ++ id "IPhone 15") ∧
    (∀ q ∈ generateMockPrices id (fun _ => 0) "iphone 15",
      q.title = "iphone 15" ∧ ∃ pre, q.url = pre ++ id "iphone 15") :=
  claim10_case_insensitive_prices id (fun _ => 0) "IPhone 15" "iphone 15"
    (by decide) (by decide) (by decide)

/-! ### The keep-first de-duplication: recursive characterisation -/

theorem dedupFirst_sublist_aux (n : Nat) :
    ∀ l : List SearchHistoryEntry, l.length ≤ n → List.Sublist (dedupFirst l) l := by
  induction n with
  | zero =>
    intro l hl
    cases l with
    | nil => simp [dedupFirst]
    | cons x xs => simp at hl
  | succ n ih =>
    intro l hl
    cases l with
    | nil => simp [dedupFirst]
    | cons x xs =>
      rw [dedupFirst]
      refine List.Sublist.cons₂ x ?_
      refine List.Sublist.trans (ih _ ?_) (List.filter_sublist xs)
      have hx : xs.length ≤ n := by
        simp only [List.length_cons] at hl
        omega
      exact le_trans (List.length_filter_le _ _) hx

theorem dedupFirst_sublist (l : List SearchHistoryEntry) :
    List.Sublist (dedupFirst l) l :=
  dedupFirst_sublist_aux l.length l le_rfl

theorem dedupFirst_names_nodup_aux (n : Nat) :
    ∀ l : List SearchHistoryEntry, l.length ≤ n →
      (dedupFirst l).Pairwise (fun a b => a.productName ≠ b.productName) := by
  induction n with
  | zero =>
    intro l hl
    cases l with
    | nil => simp [dedupFirst]
    | cons x xs => simp at hl
  | succ n ih =>
    intro l hl
    cases l with
    | nil => simp [dedupFirst]
    | cons x xs =>
      rw [dedupFirst]
      rw [List.pairwise_cons]
      constructor
      · intro y hy
        have hy' : y ∈ xs.filter (fun t => !(t.productName == x.productName)) :=
          (dedupFirst_sublist _).subset hy
        have := List.of_mem_filter hy'
        simp only [Bool.not_eq_true', beq_eq_false_iff_ne, ne_eq] at this
        exact fun hxy => this hxy.symm
      · apply ih
        have hx : xs.length ≤ n := by
          simp only [List.length_cons] at hl
          omega
        exact le_trans (List.length_filter_le _ _) hx

theorem dedupFirst_names_nodup (l : List SearchHistoryEntry) :
    (dedupFirst l).Pairwise (fun a b => a.productName ≠ b.productName) :=
  dedupFirst_names_nodup_aux l.length l le_rfl

theorem dedupFirst_eq_self_aux (n : Nat) :
    ∀ l : List SearchHistoryEntry, l.length ≤ n →
      l.Pairwise (fun a b => a.productName ≠ b.productName) → dedupFirst l = l := by
  induction n with
  | zero =>
    intro l hl _
    cases l with
    | nil => simp [dedupFirst]
    | cons x xs => simp at hl
  | succ n ih =>
    intro l hl hp
    cases l with
    | nil => simp [dedupFirst]
    | cons x xs =>
      rw [dedupFirst]
      rw [List.pairwise_cons] at hp
      have hfx : xs.filter (fun t => !(t.productName == x.productName)) = xs := by
        rw [List.filter_eq_self]
        intro t ht
        simp only [Bool.not_eq_true', beq_eq_false_iff_ne, ne_eq]
        exact fun hte => (hp.1 t ht) hte.symm
      rw [hfx]
      congr 1
      apply ih xs ?_ hp.2
      simp only [List.length_cons] at hl
      omega

theorem keepFirst_cons (x : SearchHistoryEntry) (xs : List SearchHistoryEntry) :
    keepFirstByProduct (x :: xs) =
      x :: (keepFirstByProduct xs).filter (fun t => !(t.productName == x.productName)) := by
  unfold keepFirstByProduct
  rw [List.enum_cons']
  rw [List.filter_cons]
  have hhead : (decide ((x :: xs).findIdx (fun t => t.productName == x.productName) = 0)) = true := by
    simp [List.findIdx_cons]
  rw [hhead]
  simp only [if_true]
  rw [List.map_cons]
  rw [List.filter_map, List.map_map]
  have hsnd : (Prod.snd ∘ Prod.map (fun i : Nat => i + 1) (id : SearchHistoryEntry → SearchHistoryEntry)) = Prod.snd := by
    funext p
    rfl
  rw [hsnd]
  rw [List.filter_map, List.filter_filter]
  congr 1
  apply congrArg (List.map Prod.snd)
  apply List.filter_congr
  intro q hq
  obtain ⟨i, t⟩ := q
  simp only [Function.comp_apply, Prod.map_apply, id_eq]
  simp only [List.findIdx_cons]
  by_cases hbe : x.productName = t.productName
  · have h1 : (t.productName == x.productName) = true := beq_iff_eq.mpr hbe.symm
    have h2 : (x.productName == t.productName) = true := beq_iff_eq.mpr hbe
    simp [h1, h2]
  · have h1 : (t.productName == x.productName) = false :=
      beq_eq_false_iff_ne.mpr (fun he => hbe he.symm)
    have h2 : (x.productName == t.productName) = false := beq_eq_false_iff_ne.mpr hbe
    simp [h1, h2]

theorem dedupFirst_filter_comm_aux (q : String → Bool) (n : Nat) :
    ∀ l : List SearchHistoryEntry, l.length ≤ n →
      dedupFirst (l.filter (fun t => q t.productName)) =
        (dedupFirst l).filter (fun t => q t.productName) := by
  induction n with
  | zero =>
    intro l hl
    cases l with
    | nil => simp [dedupFirst]
    | cons x xs => simp at hl
  | succ n ih =>
    intro l hl
    cases l with
    | nil => simp [dedupFirst]
    | cons x xs =>
      have hxs : xs.length ≤ n := by
        simp only [List.length_cons] at hl
        omega
      have hlen := le_trans (List.length_filter_le
        (fun t => !(t.productName == x.productName)) xs) hxs
      by_cases hx : q x.productName
      · rw [@List.filter_cons_of_pos SearchHistoryEntry (fun t => q t.productName) x xs hx,
          dedupFirst, dedupFirst,
          @List.filter_cons_of_pos SearchHistoryEntry (fun t => q t.productName) x
            (dedupFirst (List.filter (fun t => !(t.productName == x.productName)) xs)) hx]
        rw [← ih _ hlen]
        congr 1
        rw [List.filter_filter, List.filter_filter]
        apply congrArg dedupFirst
        apply List.filter_congr
        intro t _
        exact Bool.and_comm _ _
      · rw [@List.filter_cons_of_neg SearchHistoryEntry (fun t => q t.productName) x xs hx,
          dedupFirst,
          @List.filter_cons_of_neg SearchHistoryEntry (fun t => q t.productName) x
            (dedupFirst (List.filter (fun t => !(t.productName == x.productName)) xs)) hx]
        rw [← ih _ hlen]
        congr 1
        rw [List.filter_filter]
        apply List.filter_congr
        intro t _
        by_cases hqt : q t.productName
        · have hne : (t.productName == x.productName) = false := by
            rw [beq_eq_false_iff_ne]
            intro he
            exact hx (he ▸ hqt)
          simp [hqt, hne]
        · simp [hqt]

theorem keepFirst_eq_dedupFirst_aux (n : Nat) :
    ∀ l : List SearchHistoryEntry, l.length ≤ n →
      keepFirstByProduct l = dedupFirst l := by
  induction n with
  | zero =>
    intro l hl
    cases l with
    | nil => simp [keepFirstByProduct, dedupFirst]
    | cons x xs => simp at hl
  | succ n ih =>
    intro l hl
    cases l with
    | nil => simp [keepFirstByProduct, dedupFirst]
    | cons x xs =>
      have hxs : xs.length ≤ n := by
        simp only [List.length_cons] at hl
        omega
      rw [keepFirst_cons, ih xs hxs, dedupFirst]
      congr 1
      exact (dedupFirst_filter_comm_aux (fun s => !(s == x.productName)) xs.length xs
        le_rfl).symm

theorem keepFirst_eq_dedupFirst (l : List SearchHistoryEntry) :
    keepFirstByProduct l = dedupFirst l :=
  keepFirst_eq_dedupFirst_aux l.length l le_rfl

/-! ### Facts about `addHistoryEntry` -/

theorem addHistoryEntry_eq (e : SearchHistoryEntry) (l : List SearchHistoryEntry) :
    addHistoryEntry e l = (dedupFirst (e :: l)).take MAX_HISTORY_ITEMS := by
  unfold addHistoryEntry
  rw [keepFirst_eq_dedupFirst]

theorem addHistoryEntry_head (e : SearchHistoryEntry) (l : List SearchHistoryEntry) :
    (addHistoryEntry e l).head? = some e := by
  rw [addHistoryEntry_eq, dedupFirst]
  rfl

theorem addHistoryEntry_names_nodup (e : SearchHistoryEntry) (l : List SearchHistoryEntry) :
    (addHistoryEntry e l).Pairwise (fun a b => a.productName ≠ b.productName) := by
  rw [addHistoryEntry_eq]
  exact List.Pairwise.sublist (List.take_sublist _ _) (dedupFirst_names_nodup _)

theorem addHistoryEntry_length_le (e : SearchHistoryEntry) (l : List SearchHistoryEntry) :
    (addHistoryEntry e l).length ≤ 10 := by
  rw [addHistoryEntry_eq]
  have := List.length_take MAX_HISTORY_ITEMS (dedupFirst (e :: l))
  rw [this]
  unfold MAX_HISTORY_ITEMS
  omega

theorem addHistoryEntry_filter_name (e : SearchHistoryEntry) (l : List SearchHistoryEntry) :
    (addHistoryEntry e l).filter (fun t => t.productName == e.productName) = [e] := by
  rw [addHistoryEntry_eq, dedupFirst]
  have htake : (e :: dedupFirst (l.filter (fun t => !(t.productName == e.productName)))).take
      MAX_HISTORY_ITEMS =
      e :: (dedupFirst (l.filter (fun t => !(t.productName == e.productName)))).take 9 := rfl
  rw [htake]
  have hself : ((fun t : SearchHistoryEntry => t.productName == e.productName) e) = true := by
    simp
  rw [@List.filter_cons_of_pos SearchHistoryEntry
    (fun t => t.productName == e.productName) e _ hself]
  have hnil : ((dedupFirst (l.filter (fun t => !(t.productName == e.productName)))).take 9).filter
      (fun t => t.productName == e.productName) = [] := by
    rw [List.filter_eq_nil_iff]
    intro t ht
    have ht1 : t ∈ dedupFirst (l.filter (fun t => !(t.productName == e.productName))) :=
      List.take_subset _ _ ht
    have ht2 : t ∈ l.filter (fun t => !(t.productName == e.productName)) :=
      (dedupFirst_sublist _).subset ht1
    have := List.of_mem_filter ht2
    simp only [Bool.not_eq_true'] at this
    simp [this]
  rw [hnil]

theorem addHistoryEntry_of_fresh (e : SearchHistoryEntry) (l : List SearchHistoryEntry)
    (hnodup : l.Pairwise (fun a b => a.productName ≠ b.productName))
    (hfresh : ∀ x ∈ l, x.productName ≠ e.productName) :
    addHistoryEntry e l = (e :: l).take MAX_HISTORY_ITEMS := by
  rw [addHistoryEntry_eq]
  congr 1
  rw [dedupFirst]
  congr 1
  have hf : l.filter (fun t => !(t.productName == e.productName)) = l := by
    rw [List.filter_eq_self]
    intro t ht
    simp only [Bool.not_eq_true', beq_eq_false_iff_ne, ne_eq]
    exact hfresh t ht
  rw [hf]
  exact dedupFirst_eq_self_aux l.length l le_rfl hnodup

/-! ### The cache-state invariant -/

theorem histStep_inv (s : CacheState)
    (hs : (s.history.Pairwise (fun a b => a.productName ≠ b.productName) ∧
        s.history.length ≤ 10) ∧
      ∀ lst, s.storage = some lst →
        lst.Pairwise (fun a b => a.productName ≠ b.productName) ∧ lst.length ≤ 10)
    (op : HistOp) :
    ((histStep s op).history.Pairwise (fun a b => a.productName ≠ b.productName) ∧
        (histStep s op).history.length ≤ 10) ∧
      ∀ lst, (histStep s op).storage = some lst →
        lst.Pairwise (fun a b => a.productName ≠ b.productName) ∧ lst.length ≤ 10 := by
  cases op with
  | add e =>
    refine ⟨⟨addHistoryEntry_names_nodup e s.history, addHistoryEntry_length_le e s.history⟩, ?_⟩
    intro lst hlst
    simp only [histStep, Option.some.injEq] at hlst
    subst hlst
    exact ⟨addHistoryEntry_names_nodup e s.history, addHistoryEntry_length_le e s.history⟩
  | load =>
    cases hst : s.storage with
    | none =>
      simp only [histStep, hst]
      exact ⟨hs.1, fun lst hlst => by simp at hlst⟩
    | some stored =>
      simp only [histStep, hst]
      refine ⟨hs.2 stored hst, ?_⟩
      intro lst hlst
      simp only [Option.some.injEq] at hlst
      subst hlst
      exact hs.2 stored hst

theorem foldl_histStep_inv (ops : List HistOp) :
    ∀ s : CacheState,
      ((s.history.Pairwise (fun a b => a.productName ≠ b.productName) ∧
          s.history.length ≤ 10) ∧
        ∀ lst, s.storage = some lst →
          lst.Pairwise (fun a b => a.productName ≠ b.productName) ∧ lst.length ≤ 10) →
      (((ops.foldl histStep s).history.Pairwise (fun a b => a.productName ≠ b.productName) ∧
          (ops.foldl histStep s).history.length ≤ 10) ∧
        ∀ lst, (ops.foldl histStep s).storage = some lst →
          lst.Pairwise (fun a b => a.productName ≠ b.productName) ∧ lst.length ≤ 10) := by
  induction ops with
  | nil => intro s hs; exact hs
  | cons op rest ih =>
    intro s hs
    exact ih (histStep s op) (histStep_inv s hs op)

theorem runHist_inv (ops : List HistOp) :
    ((runHist ops).history.Pairwise (fun a b => a.productName ≠ b.productName) ∧
      (runHist ops).history.length ≤ 10) ∧
    ∀ lst, (runHist ops).storage = some lst →
      lst.Pairwise (fun a b => a.productName ≠ b.productName) ∧ lst.length ≤ 10 := by
  apply foldl_histStep_inv
  refine ⟨⟨List.Pairwise.nil, by simp⟩, ?_⟩
  intro lst hlst
  simp at hlst

/-- C3: every cache state reachable by a sequence of `addEntry` and
`load` operations from the fresh state has pairwise-distinct product
names and at most 10 entries; a newly added entry is always at the
front (most-recent-first), and adding an entry with a fresh product
name to a full list of 10 evicts exactly the oldest entry, keeping the
length at 10. -/
theorem claim3_history_invariants (ops : List HistOp) :
    (runHist ops).history.Pairwise (fun a b => a.productName ≠ b.productName) ∧
    (runHist ops).history.length ≤ 10 ∧
    (∀ e, (runHist (ops ++ [HistOp.add e])).history.head? = some e) ∧
    (∀ e, (runHist ops).history.length = 10 →
      (∀ x ∈ (runHist ops).history, x.productName ≠ e.productName) →
      (runHist (ops ++ [HistOp.add e])).history = e :: (runHist ops).history.take 9 ∧
      (runHist (ops ++ [HistOp.add e])).history.length = 10) := by
  obtain ⟨⟨hnodup, hlen⟩, -⟩ := runHist_inv ops
  have happ : ∀ e, runHist (ops ++ [HistOp.add e]) =
      histStep (runHist ops) (HistOp.add e) := by
    intro e
    unfold runHist
    rw [List.foldl_append]
    rfl
  refine ⟨hnodup, hlen, ?_, ?_⟩
  · intro e
    rw [happ e]
    exact addHistoryEntry_head e (runHist ops).history
  · intro e h10 hfresh
    rw [happ e]
    have hstep : (histStep (runHist ops) (HistOp.add e)).history =
        addHistoryEntry e (runHist ops).history := rfl
    rw [hstep, addHistoryEntry_of_fresh e (runHist ops).history hnodup hfresh]
    have htake : (e :: (runHist ops).history).take MAX_HISTORY_ITEMS =
        e :: (runHist ops).history.take 9 := rfl
    rw [htake]
    refine ⟨rfl, ?_⟩
    simp only [List.length_cons, List.length_take, h10]
    rfl

/-- C3 witness: ten adds of distinct products fill the cache to length
10; an eleventh distinct add evicts the oldest entry and keeps the
length at 10. -/
theorem claim3_witness :
    (runHist ((List.range 10).map
        (fun i => HistOp.add ⟨toString i, "p" ++ toString i, 0, "s", "t"⟩))).history.length
      = 10 ∧
    (runHist ((List.range 10).map
        (fun i => HistOp.add ⟨toString i, "p" ++ toString i, 0, "s", "t"⟩) ++
        [HistOp.add ⟨"10", "p10", 0, "s", "t"⟩])).history =
      ⟨"10", "p10", 0, "s", "t"⟩ ::
        (runHist ((List.range 10).map
          (fun i => HistOp.add ⟨toString i, "p" ++ toString i, 0, "s", "t"⟩))).history.take 9 ∧
    (runHist ((List.range 10).map
        (fun i => HistOp.add ⟨toString i, "p" ++ toString i, 0, "s", "t"⟩) ++
        [HistOp.add ⟨"10", "p10", 0, "s", "t"⟩])).history.length = 10 := by
  obtain ⟨-, -, -, h4⟩ := claim3_history_invariants ((List.range 10).map
    (fun i => HistOp.add ⟨toString i, "p" ++ toString i, 0, "s", "t"⟩))
  have hres := h4 ⟨"10", "p10", 0, "s", "t"⟩ (by decide)
    (by decide)
  exact ⟨by decide, hres.1, hres.2⟩

/-- C4: adding two entries with the same product name (any data, any
starting list) leaves exactly one entry for that product, carrying the
data of the second entry, positioned first. -/
theorem claim4_addEntry_same_product_twice (e1 e2 : SearchHistoryEntry)
    (l : List SearchHistoryEntry) (h : e1.productName = e2.productName) :
    (addHistoryEntry e2 (addHistoryEntry e1 l)).head? = some e2 ∧
    (addHistoryEntry e2 (addHistoryEntry e1 l)).filter
      (fun t => t.productName == e2.productName) = [e2] ∧
    (addHistoryEntry e2 (addHistoryEntry e1 l)).filter
      (fun t => t.productName == e1.productName) = [e2] := by
  refine ⟨addHistoryEntry_head e2 _, addHistoryEntry_filter_name e2 _, ?_⟩
  rw [h]
  exact addHistoryEntry_filter_name e2 _

/-- C4 witness: two adds of product "a" over a starting list holding
products "b" and "a". -/
theorem claim4_witness :
    (addHistoryEntry ⟨"i2", "a", 7, "s2", "t2"⟩
        (addHistoryEntry ⟨"i1", "a", 3, "s1", "t1"⟩
          [⟨"i0", "b", 1, "s0", "t0"⟩, ⟨"iold", "a", 2, "sold", "told"⟩])).head? =
      some ⟨"i2", "a", 7, "s2", "t2"⟩ ∧
    (addHistoryEntry ⟨"i2", "a", 7, "s2", "t2"⟩
        (addHistoryEntry ⟨"i1", "a", 3, "s1", "t1"⟩
          [⟨"i0", "b", 1, "s0", "t0"⟩, ⟨"iold", "a", 2, "sold", "told"⟩])).filter
      (fun t => t.productName == "a") = [⟨"i2", "a", 7, "s2", "t2"⟩] ∧
    (addHistoryEntry ⟨"i2", "a", 7, "s2", "t2"⟩
        (addHistoryEntry ⟨"i1", "a", 3, "s1", "t1"⟩
          [⟨"i0", "b", 1, "s0", "t0"⟩, ⟨"iold", "a", 2, "sold", "told"⟩])).filter
      (fun t => t.productName == "a") = [⟨"i2", "a", 7, "s2", "t2"⟩] :=
  claim4_addEntry_same_product_twice ⟨"i1", "a", 3, "s1", "t1"⟩ ⟨"i2", "a", 7, "s2", "t2"⟩
    [⟨"i0", "b", 1, "s0", "t0"⟩, ⟨"iold", "a", 2, "sold", "told"⟩] rfl

/-- C7: the history load path never propagates a failure — with the
storage key absent, the stored value empty (falsy), or `JSON.parse`
throwing on malformed contents, the cache initialises as the empty
list. -/
theorem claim7_load_never_fails (parse : String → Except String (List SearchHistoryEntry))
    (s e : String) (hm : parse s = Except.error e) :
    loadHistory parse none = [] ∧
    loadHistory parse (some "") = [] ∧
    loadHistory parse (some s) = [] := by
  refine ⟨rfl, rfl, ?_⟩
  simp only [loadHistory]
  by_cases hs : s = ""
  · rw [if_pos hs]
  · rw [if_neg hs, hm]

/-- C7 witness: a parser that throws on the stored junk. -/
theorem claim7_witness :
    loadHistory (fun _ => Except.error "SyntaxError") none = [] ∧
    loadHistory (fun _ => Except.error "SyntaxError") (some "") = [] ∧
    loadHistory (fun _ => Except.error "SyntaxError") (some "\x7bnot json") = [] :=
  claim7_load_never_fails (fun _ => Except.error "SyntaxError") "\x7bnot json" "SyntaxError" rfl

/-! ### Facts about `jsIndexOf` -/

theorem jsIndexOf_cases (l : List String) (x : String) :
    jsIndexOf l x = -1 ∨ 0 ≤ jsIndexOf l x := by
  induction l with
  | nil => exact Or.inl rfl
  | cons h t ih =>
    unfold jsIndexOf
    by_cases hh : h = x
    · rw [if_pos hh]
      exact Or.inr le_rfl
    · rw [if_neg hh]
      rcases ih with h1 | h1
      · rw [h1]
        exact Or.inl rfl
      · rw [if_neg (by omega : ¬ jsIndexOf t x = -1)]
        exact Or.inr (by omega)

theorem jsIndexOf_eq_neg_one_iff (l : List String) (x : String) :
    jsIndexOf l x = -1 ↔ x ∉ l := by
  induction l with
  | nil => simp [jsIndexOf]
  | cons h t ih =>
    unfold jsIndexOf
    by_cases hh : h = x
    · rw [if_pos hh]
      simp [hh]
    · rw [if_neg hh]
      rcases jsIndexOf_cases t x with h1 | h1
      · rw [h1, if_pos rfl]
        have hx : x ∉ h :: t := by
          simp only [List.mem_cons, not_or]
          exact ⟨fun hx => hh hx.symm, ih.mp h1⟩
        simp [hx]
      · rw [if_neg (by omega : ¬ jsIndexOf t x = -1)]
        simp only [List.mem_cons, not_or]
        constructor
        · intro habs
          exact absurd habs (by omega)
        · intro hx
          exact absurd (ih.mpr hx.2) (by omega)

/-- C9 (amended): for every CSV text whose inspected header cells lack a
`productname` column, `processCsv` fails as a whole batch — status
"error", empty results, and independence from the `searchPrices`
collaborator (so no search is performed for any row) — and whenever the
CSV has at least a header line and one further non-empty line, the
failure carries the schema-error message. -/
theorem claim9_missing_column_batch_failure
    (search1 search2 : String → Except String ComparisonData) (text : String)
    (h : "productname" ∉ headersOfCsv text) :
    (processCsv search1 (some text)).status = "error" ∧
    (processCsv search1 (some text)).results = [] ∧
    processCsv search1 (some text) = processCsv search2 (some text) ∧
    (2 ≤ (csvLines text).length →
      (processCsv search1 (some text)).message = "CSV must have a 'ProductName' column.") := by
  have hidx : jsIndexOf (headersOfCsv text) "productname" = -1 :=
    (jsIndexOf_eq_neg_one_iff _ _).mpr h
  by_cases ht : text = ""
  · subst ht
    refine ⟨rfl, rfl, rfl, ?_⟩
    intro hlen
    exact absurd hlen (by decide)
  · by_cases hlen : (csvLines text).length < 2
    · have hp : parseCsv text = Except.ok [] := by
        simp only [parseCsv]
        rw [if_pos hlen]
      have hpc : ∀ search : String → Except String ComparisonData,
          processCsv search (some text) =
            { status := "error", message := "No products found in the CSV file.",
              results := [] } := by
        intro search
        simp only [processCsv]
        rw [if_neg ht, hp]
        rfl
      rw [hpc search1, hpc search2]
      refine ⟨rfl, rfl, rfl, ?_⟩
      intro h2
      omega
    · have hp : parseCsv text = Except.error "CSV must have a 'ProductName' column." := by
        simp only [parseCsv]
        rw [if_neg hlen, if_pos hidx]
      have hpc : ∀ search : String → Except String ComparisonData,
          processCsv search (some text) =
            { status := "error", message := "CSV must have a 'ProductName' column.",
              results := [] } := by
        intro search
        simp only [processCsv]
        rw [if_neg ht, hp]
      rw [hpc search1, hpc search2]
      exact ⟨rfl, rfl, rfl, fun _ => rfl⟩

/-- C9 witness: a two-line CSV without a ProductName column is rejected
as a batch with the schema error, independently of the search
collaborator. -/
theorem claim9_witness :
    (processCsv (fun n => Except.ok (⟨n, [], none, ""⟩ : ComparisonData)) (some "Name,Price\nfoo,1")).status = "error" ∧
    (processCsv (fun n => Except.ok (⟨n, [], none, ""⟩ : ComparisonData)) (some "Name,Price\nfoo,1")).results = [] ∧
    processCsv (fun n => Except.ok (⟨n, [], none, ""⟩ : ComparisonData)) (some "Name,Price\nfoo,1") =
      processCsv (fun n => Except.error "never") (some "Name,Price\nfoo,1") ∧
    (2 ≤ (csvLines "Name,Price\nfoo,1").length →
      (processCsv (fun n => Except.ok (⟨n, [], none, ""⟩ : ComparisonData)) (some "Name,Price\nfoo,1")).message =
        "CSV must have a 'ProductName' column.") :=
  claim9_missing_column_batch_failure
    (fun n => Except.ok (⟨n, [], none, ""⟩ : ComparisonData))
    (fun n => Except.error "never") "Name,Price\nfoo,1" (by decide)

/-- C9 counterexample to the claim as frozen: a CSV consisting of a
single header line that lacks a ProductName column is still rejected as
a whole batch with empty results, but its message is the generic
"No products found in the CSV file." rather than the schema error, so
"fails with a schema error" does not hold for every such CSV input. -/
theorem claim9_counterexample :
    ("productname" ∉ headersOfCsv "Name,Price") ∧
    (processCsv (fun n => Except.ok (⟨n, [], none, ""⟩ : ComparisonData)) (some "Name,Price")).status = "error" ∧
    (processCsv (fun n => Except.ok (⟨n, [], none, ""⟩ : ComparisonData)) (some "Name,Price")).results = [] ∧
    (processCsv (fun n => Except.ok (⟨n, [], none, ""⟩ : ComparisonData)) (some "Name,Price")).message = "No products found in the CSV file." ∧
    (processCsv (fun n => Except.ok (⟨n, [], none, ""⟩ : ComparisonData)) (some "Name,Price")).message ≠ "CSV must have a 'ProductName' column." := by
  refine ⟨by decide, rfl, rfl, rfl, by decide⟩
